import Mathlib

/-!
Shallow embedding of the InspIRCd core (mode engine, config parser, timer
manager, shun module) together with proofs of the specification claims.

Each definition mirrors one function of the C++ sources; strings are modelled
as Lean strings (or lists of characters where index arithmetic matters) and
machine integers as naturals.
-/

namespace Insp

/-- The null character, which is what `std::string::operator[]` yields at the
index `size()` (in particular at index 0 of an empty string). -/
def nulChar : Char := Char.ofNat 0

/-- `mask[i]` on a `std::string`: the character at index `i`, or NUL when the
index is the length (reads beyond are undefined, not used by the sources). -/
def charAt (m : List Char) (i : Nat) : Char := (m.drop i).headD nulChar

/-- Whether the mask contains the two-character substring `::`
(`mask.find("::") != npos` in `ModeParser::CleanMask`). -/
def hasDoubleColon : List Char → Bool
  | [] => false
  | [_] => false
  | a :: b :: rest => (a == ':' && b == ':') || hasDoubleColon (b :: rest)

/-- Embedding of `ModeParser::CleanMask` (src/src/mode.cpp:528).  The source
only uses the positions of `!`, `@`, `.` and `::` to test presence, plus the
characters at indices 0 and 1, so the embedding works with containment tests
and `charAt`. -/
def cleanMask (m : List Char) : List Char :=
  if 2 ≤ m.length && charAt m 1 == ':' then
    -- if it's an extban, don't even try guess how it needs to be formed.
    m
  else if !(m.contains '!') && !(m.contains '@') then
    if !(m.contains '.') && !(hasDoubleColon m) && charAt m 0 != ':' then
      -- It has no '.' in it, it must be a nick.
      m ++ ['!', '*', '@', '*']
    else
      -- Got a dot in it? Has to be a host
      ['*', '!', '*', '@'] ++ m
  else if !(m.contains '!') && (m.contains '@') then
    -- Has an @ but no !, its a user@host
    ['*', '!'] ++ m
  else if (m.contains '!') && !(m.contains '@') then
    -- Has a ! but no @, it must be a nick!ident
    m ++ ['@', '*']
  else
    m

/-! ## Mode engine (src/src/mode.cpp) -/

/-- `ModResult` (module hook results). -/
inductive ModResult where
  | passthru
  | deny
  | allow
deriving DecidableEq, Repr

/-- `ModeAction` (handler results). -/
inductive ModeAction where
  | deny
  | allow
deriving DecidableEq, Repr

/-- `ParamSpec` from the mode header: whether a mode takes a parameter. -/
inductive ParamSpec where
  | paramNone
  | paramSetOnly
  | paramAlways
deriving DecidableEq, Repr

/-- `ModeHandler::NeedsParam` (src/src/mode.cpp:50). -/
def paramSpecNeeds : ParamSpec → Bool → Bool
  | .paramAlways, _ => true
  | .paramSetOnly, adding => adding
  | .paramNone, _ => false

/-- A `Modes::Change`: direction and parameter (the handler pointer is kept
separately in the embedding). -/
structure Change where
  adding : Bool
  param : String
deriving DecidableEq, Repr

/-- One registered prefix mode, as consulted by the ACL step of `TryMode`
(name and `GetPrefixRank()`). -/
structure PrefixModeInfo where
  name : String
  rank : Nat
deriving DecidableEq, Repr

/-- A mode handler as seen by `ModeParser::TryMode`: its static attributes
plus the virtual methods the processor invokes.  `onModeChange` returns the
action together with the (possibly rewritten) `change.param`. -/
structure MHandler where
  name : String
  letter : Char
  params : ParamSpec
  needsOper : Bool
  levelRequired : Bool → Nat
  accessCheck : Change → ModResult
  onModeChange : Change → ModeAction × String

/-- The environment of one `TryMode` call: facts about the acting user, the
target channel and the registered listeners. -/
structure TryModeCtx where
  /-- `IS_LOCAL(user)`. -/
  isLocal : Bool
  /-- Outcome of `FIRST_MOD_RESULT(OnRawMode, ...)`. -/
  rawModeResult : ModResult
  /-- `chan->name` when a target channel exists. -/
  chan : Option String
  /-- `chan->GetPrefixValue(user)`: the actor's highest prefix rank. -/
  ourRank : Nat
  /-- `GetPrefixModes()`: the registered prefix modes. -/
  prefixModes : List PrefixModeInfo
  /-- `BeforeMode` of each matching-type mode watcher, in registration order;
  a watcher may veto (first component) and rewrite the param (second). -/
  watchers : List (Change → Bool × String)
  /-- `user->IsOper()`. -/
  isOper : Bool
  /-- `user->oper->name`. -/
  operTypeName : String
  /-- `user->HasModePermission(mh)`. -/
  hasModePermission : Bool

/-- `MODE_PARAM_MAX` from the mode header (the header is not among the
sources; the constant's concrete value is irrelevant to the claims). -/
def MODE_PARAM_MAX : Nat := 250

def ERR_CHANOPRIVSNEEDED : Nat := 482
def ERR_NOPRIVILEGES : Nat := 481

/-- The crop at the top of `TryMode` (src/src/mode.cpp:254): an adding change
whose parameter exceeds `MODE_PARAM_MAX` characters is truncated to exactly
`MODE_PARAM_MAX` characters; removals are left alone. -/
def cropParam (c : Change) : Change :=
  if MODE_PARAM_MAX < c.param.length && c.adding then
    { c with param := String.mk (c.param.data.take MODE_PARAM_MAX) }
  else c

/-- The loop over `GetPrefixModes()` inside the ACL failure branch of
`TryMode` (src/src/mode.cpp:285): pick the first prefix mode of minimal rank
among those whose rank is at least `neededrank`. -/
def neededPrefixModeGo (neededrank : Nat) :
    List PrefixModeInfo → Option PrefixModeInfo → Option PrefixModeInfo
  | [], acc => acc
  | pm :: rest, acc =>
    let acc' :=
      if neededrank ≤ pm.rank then
        match acc with
        | none => some pm
        | some best => if pm.rank < best.rank then some pm else some best
      else acc
    neededPrefixModeGo neededrank rest acc'

def neededPrefixMode (pms : List PrefixModeInfo) (neededrank : Nat) :
    Option PrefixModeInfo :=
  neededPrefixModeGo neededrank pms none

/-- The `ERR_CHANOPRIVSNEEDED` message naming the minimum-ranked sufficient
prefix mode (src/src/mode.cpp:295). -/
def chanPrivsNeededMsg (pmName : String) (adding : Bool) (letter : Char) : String :=
  "You must have channel " ++ pmName ++ " access or above to " ++
    (if adding then "" else "un") ++ "set channel mode " ++ String.singleton letter

/-- The generic `ERR_CHANOPRIVSNEEDED` message when no prefix mode suffices
(src/src/mode.cpp:298). -/
def chanPrivsNeededGenericMsg (adding : Bool) (letter : Char) : String :=
  "You cannot " ++ (if adding then "" else "un") ++ "set channel mode " ++
    String.singleton letter

/-- The `BeforeMode` watcher loop of `TryMode` (src/src/mode.cpp:304): each
watcher may veto, and if a watcher empties a needed parameter the change is
aborted too.  Returns the surviving change. -/
def runBeforeWatchers (needsParam : Bool) :
    List (Change → Bool × String) → Change → Option Change
  | [], c => some c
  | w :: ws, c =>
    let r := w c
    if !r.1 then none
    else
      let c' : Change := { c with param := r.2 }
      if needsParam && c'.param.isEmpty then none
      else runBeforeWatchers needsParam ws c'

/-- The outcome of a `TryMode` call: the returned `ModeAction`, the numerics
written to the acting user (code and parameter list), whether the handler's
`OnModeChange` ran, and the final value of `change.param`. -/
structure TryModeResult where
  action : ModeAction
  numerics : List (Nat × List String)
  handlerCalled : Bool
  param : String
deriving DecidableEq, Repr

/-- Embedding of `ModeParser::TryMode` (src/src/mode.cpp:247). -/
def tryMode (ctx : TryModeCtx) (mh : MHandler) (c0 : Change) (skipACL : Bool) :
    TryModeResult :=
  let needsP := paramSpecNeeds mh.params c0.adding
  -- crop mode parameter size to MODE_PARAM_MAX characters
  let c := cropParam c0
  if ctx.isLocal && ctx.rawModeResult == ModResult.deny then
    ⟨.deny, [], false, c.param⟩
  else
    -- the ACL block runs when a channel exists, ACL is not skipped and the
    -- raw-mode hook did not force-allow
    let aclDenied : Option (Option (Nat × List String)) :=
      if ctx.chan.isSome && !skipACL && ctx.rawModeResult != ModResult.allow then
        match mh.accessCheck c with
        | .deny => some none  -- denied without a numeric
        | .allow => none
        | .passthru =>
          let neededrank := mh.levelRequired c.adding
          if ctx.ourRank < neededrank then
            match neededPrefixMode ctx.prefixModes neededrank with
            | some neededmh =>
              some (some (ERR_CHANOPRIVSNEEDED,
                [ctx.chan.getD "", chanPrivsNeededMsg neededmh.name c.adding mh.letter]))
            | none =>
              some (some (ERR_CHANOPRIVSNEEDED,
                [ctx.chan.getD "", chanPrivsNeededGenericMsg c.adding mh.letter]))
          else
            none
      else
        none
    match aclDenied with
    | some none => ⟨.deny, [], false, c.param⟩
    | some (some numeric) => ⟨.deny, [numeric], false, c.param⟩
    | none =>
      match runBeforeWatchers needsP ctx.watchers c with
      | none => ⟨.deny, [], false, c.param⟩
      | some c1 =>
        if (ctx.chan.isSome || (!ctx.chan.isSome && c1.adding)) && ctx.isLocal
            && mh.needsOper && !ctx.hasModePermission then
          -- It's an oper only mode, and they don't have access to it.
          let typestr := if ctx.chan.isSome then "channel" else "user"
          let unstr := if c1.adding then "" else "un"
          let msg :=
            if ctx.isOper then
              "Permission Denied - Oper type " ++ ctx.operTypeName ++
                " does not have access to " ++ unstr ++ "set " ++ typestr ++
                " mode " ++ String.singleton mh.letter
            else
              "Permission Denied - Only operators may " ++ unstr ++ "set " ++
                typestr ++ " mode " ++ String.singleton mh.letter
          ⟨.deny, [(ERR_NOPRIVILEGES, [msg])], false, c1.param⟩
        else
          -- Call the handler for the mode
          let r := mh.onModeChange c1
          if needsP && r.2.isEmpty then ⟨.deny, [], true, r.2⟩
          else if r.1 != ModeAction.allow then ⟨r.1, [], true, r.2⟩
          else ⟨.allow, [], true, r.2⟩

/-! ## `ParamModeBase::OnModeChange` (src/src/mode.cpp:221) -/

/-- Modelled from the spec: the per-channel storage of one parameter mode as
exposed by `Channel::IsModeSet` / `Channel::GetModeParameter` (channels.cpp is
not among the sources).  The parameter is stored while the mode is set and the
entry is erased when it is unset, so reading the parameter of an unset mode
yields the empty string. -/
structure ParamChanState where
  modeSet : Bool
  param : String
deriving DecidableEq, Repr

/-- Modelled from the spec: `Channel::GetModeParameter` yields the stored
parameter of a set mode and the empty string otherwise. -/
def getModeParameter (st : ParamChanState) : String :=
  if st.modeSet then st.param else ""

/-- Embedding of `ParamModeBase::OnModeChange` (src/src/mode.cpp:221).
`onSet` stands for the virtual `OnSet` of the concrete parameter mode: it
gets `change.param` and either rejects or accepts, returning the internally
stored parameter (which `GetParameter` then writes back into the change).
Returns the action, the new channel state and the final `change.param`. -/
def paramModeOnModeChange (onSet : String → Option String)
    (st : ParamChanState) (c : Change) : ModeAction × ParamChanState × String :=
  if c.adding then
    if getModeParameter st == c.param then (.deny, st, c.param)
    else
      match onSet c.param with
      | none => (.deny, st, c.param)
      | some stored =>
        -- chan->SetMode(this, true); change.param regenerated from storage
        (.allow, ⟨true, stored⟩, stored)
  else
    if !st.modeSet then (.deny, st, c.param)
    else
      -- OnUnsetInternal clears the storage, chan->SetMode(this, false)
      (.allow, ⟨false, ""⟩, c.param)

/-! ## `ModeParser::Process` / `ProcessSingle` (src/src/mode.cpp:418) -/

/-- `IsModeParamValid` (src/src/mode.cpp:386): an empty parameter, one that
begins with `:` or one containing a space fails basic validation. -/
def isModeParamValid (param : String) : Bool :=
  if param.isEmpty then false
  else if charAt param.data 0 == ':' || param.data.contains ' ' then false
  else true

/-- One entry of a `ChangeList` as seen by `ProcessSingle`, with the per-item
facts the loop branches on: `hasHandler` is `item.mh != NULL`, `needsParam`
is `mh->NeedsParam(item.adding)`, `mergeApply` the outcome of
`ShouldApplyMergedMode` and `allow` the outcome of the `TryMode` call. -/
structure PItem where
  hasHandler : Bool
  needsParam : Bool
  param : String
  mergeApply : Bool
  allow : Bool
deriving DecidableEq, Repr

/-- The loop body of `ModeParser::ProcessSingle` (src/src/mode.cpp:438):
walk the changelist from the given point, counting every visited item in
`modes_processed`, skipping rejected items, appending every allowed change to
the applied list (`LastChangeList`) and breaking once the applied list has
reached `<limits:maxmodes>`.  Returns `(modes_processed, applied)`. -/
def processLoop (maxModes : Nat) (merge : Bool) :
    List PItem → List PItem → Nat × List PItem
  | [], applied => (0, applied)
  | item :: rest, applied =>
    if !item.hasHandler then
      let r := processLoop maxModes merge rest applied
      (r.1 + 1, r.2)
    else if item.needsParam && !(isModeParamValid item.param) then
      let r := processLoop maxModes merge rest applied
      (r.1 + 1, r.2)
    else if item.needsParam && (merge && !item.mergeApply) then
      let r := processLoop maxModes merge rest applied
      (r.1 + 1, r.2)
    else if !item.allow then
      let r := processLoop maxModes merge rest applied
      (r.1 + 1, r.2)
    else
      let applied' := applied ++ [item]
      if maxModes ≤ applied'.length then
        -- mode sequence is getting too long
        (1, applied')
      else
        let r := processLoop maxModes merge rest applied'
        (r.1 + 1, r.2)

/-- `ModeParser::ProcessSingle` (src/src/mode.cpp:431): process the
changelist from `beginindex` with a fresh `LastChangeList`. -/
def processSingle (maxModes : Nat) (merge : Bool) (items : List PItem)
    (beginindex : Nat) : Nat × List PItem :=
  processLoop maxModes merge (items.drop beginindex) []

/-- `ModeParser::Process` (src/src/mode.cpp:418): call `ProcessSingle` until
the entire list is processed, but at least once; returns the sequence of
applied batches (one MODE event each).  The do-while loop is given as fuel
the number of iterations it may take. -/
def processFuel (maxModes : Nat) (merge : Bool) (items : List PItem) :
    Nat → Nat → List (List PItem)
  | 0, _ => []
  | fuel + 1, processed =>
    let r := processSingle maxModes merge items processed
    let processed' := processed + r.1
    if processed' < items.length then
      r.2 :: processFuel maxModes merge items fuel processed'
    else
      [r.2]

/-- An item passes every filter of the `ProcessSingle` loop and its `TryMode`
allows it. -/
def itemApplies (merge : Bool) (it : PItem) : Bool :=
  it.hasHandler &&
    (!it.needsParam || (isModeParamValid it.param && !(merge && !it.mergeApply))) &&
    it.allow

/-! ## Config parser: entity expansion (src/src/configparser.cpp:193) -/

/-- `Parser::wordchar` (src/src/configparser.cpp:147). -/
def wordchar (ch : Char) : Bool :=
  ch.isAlphanum || ch == '-' || ch == '.' || ch == '_'

/-- Value of a decimal digit character. -/
def decVal (c : Char) : Nat := c.toNat - 48

/-- Whether a character is a hexadecimal digit (as accepted by `strtoul`
with base 16). -/
def isHexDig (c : Char) : Bool :=
  c.isDigit || ('a' ≤ c && c ≤ 'f') || ('A' ≤ c && c ≤ 'F')

/-- Value of a hexadecimal digit character. -/
def hexVal (c : Char) : Nat :=
  if c.isDigit then c.toNat - 48
  else if 'a' ≤ c && c ≤ 'f' then c.toNat - 87
  else c.toNat - 55

/-- `strtoul` on the digits of an entity name: consume the longest leading
digit run accumulating the value, returning it with the unconsumed rest (the
entity name consists of word characters only, so no sign or whitespace can
occur in it). -/
def parseDigitsGo (isDig : Char → Bool) (dval : Char → Nat) (base : Nat) :
    List Char → Nat → Nat × List Char
  | [], acc => (acc, [])
  | ch :: rest, acc =>
    if isDig ch then parseDigitsGo isDig dval base rest (acc * base + dval ch)
    else (acc, ch :: rest)

/-- The environment in which a quoted config value is expanded. -/
structure EntityEnv where
  /-- `FLAG_NO_ENV` is set for the file being parsed. -/
  noenv : Bool
  /-- `getenv`. -/
  env : String → Option String
  /-- `stack.vars`. -/
  vars : List (String × String)

/-- Modelled from the spec: the variable table `ParseStack` starts with (the
`ParseStack` constructor is not among the sources); the parse error text in
`Parser::kv` advertises exactly `&amp;` for an ampersand and `&quot;` for a
quote. -/
def defaultVars : List (String × String) := [("amp", "&"), ("quot", "\x22")]

/-- `<define name=... value=...>` (src/src/configparser.cpp:301) installs a
variable: `stack.vars[varname] = value`, overriding any previous binding. -/
def defineVar (vars : List (String × String)) (name value : String) :
    List (String × String) :=
  (name, value) :: vars

/-- `stack.vars.find(varname)`. -/
def lookupVar (vars : List (String × String)) (name : String) : Option String :=
  List.lookup name vars

/-- Embedding of the entity-expansion arm of `Parser::kv`
(src/src/configparser.cpp:196-248), applied to the entity name collected
between `&` and `;`: numeric references (decimal and hex, at most 255),
`env.`-references and named variables. -/
def expandEntity (e : EntityEnv) (varname : String) : Except String String :=
  if varname.data.isEmpty then
    .error "Empty XML entity reference"
  else if charAt varname.data 0 == '#' &&
      (varname.data.length == 1 ||
        (varname.data.length == 2 && charAt varname.data 1 == 'x')) then
    .error "Empty numeric character reference"
  else if charAt varname.data 0 == '#' then
    let digits :=
      if charAt varname.data 1 == 'x' then varname.data.drop 2 else varname.data.drop 1
    let r :=
      if charAt varname.data 1 == 'x' then parseDigitsGo isHexDig hexVal 16 digits 0
      else parseDigitsGo Char.isDigit decVal 10 digits 0
    if !r.2.isEmpty || decide (255 < r.1) then
      .error ("Invalid numeric character reference '&" ++ varname ++ ";'")
    else
      .ok (String.singleton (Char.ofNat r.1))
  else if varname.data.take 4 == ['e', 'n', 'v', '.'] then
    if e.noenv then
      .error "XML environment entity reference in file included with noenv=\x22yes\x22"
    else
      match e.env (String.mk (varname.data.drop 4)) with
      | none => .error ("Undefined XML environment entity reference '&" ++ varname ++ ";'")
      | some v => .ok v
  else
    match lookupVar e.vars varname with
    | none => .error ("Undefined XML entity reference '&" ++ varname ++ ";'")
    | some v => .ok v

/-! ## Config parser: includes and cycle detection
(src/src/configparser.cpp:363,466) -/

/-- The error `ParseStack::ParseFile` throws when the opened path is already
on the `reading` stack (src/src/configparser.cpp:470). -/
def recursionErrorMsg (isexec : Bool) (path : String) : String :=
  (if isexec then "Executable " else "File ") ++ path ++
    " is included recursively (looped inclusion)"

mutual

/-- Embedding of `ParseStack::ParseFile` for the include structure: a model
filesystem maps each path to the list of `<include file=...>` targets it
contains (only includes matter for cycle detection).  `reading` is the stack
of currently-open paths.  Returns the list of files opened for parsing, in
order, together with the first error raised (if any); `fuel` bounds the
recursion depth (the C++ call stack). -/
def parseFileGo (fs : String → Option (List String)) :
    Nat → List String → Bool → String → List String × Option String
  | 0, _, _, _ => ([], some "out of fuel")
  | fuel + 1, reading, isexec, path =>
    if path ∈ reading then
      ([], some (recursionErrorMsg isexec path))
    else
      match fs path with
      | none => ([], some ("Could not read \x22" ++ path ++ "\x22 for include"))
      | some incs =>
        let r := parseIncludes fs fuel (reading ++ [path]) incs
        (path :: r.1, r.2)
termination_by fuel _ _ _ => (fuel, 0)

/-- The `<include>` tags of one file, parsed in order; the first failing
include aborts the rest (`DoInclude` throws). -/
def parseIncludes (fs : String → Option (List String)) :
    Nat → List String → List String → List String × Option String
  | _, _, [] => ([], none)
  | fuel, reading, inc :: rest =>
    let r := parseFileGo fs fuel reading false inc
    match r.2 with
    | some e => (r.1, some e)
    | none =>
      let r2 := parseIncludes fs fuel reading rest
      (r.1 ++ r2.1, r2.2)
termination_by fuel _ incs => (fuel, incs.length + 1)

end

/-- The parse flags of `src/src/configparser.cpp:32` as a record. -/
structure IncludeFlags where
  noExec : Bool
  noInc : Bool
  noEnv : Bool
  missingOkay : Bool
deriving DecidableEq, Repr

/-- The attributes of an `<include>` tag that feed the flag computation;
`none` models an absent attribute (so `getBool` yields its default). -/
structure IncludeTag where
  noinclude : Option Bool
  noexec : Option Bool
  noenv : Option Bool
  missingokay : Option Bool
deriving DecidableEq, Repr

/-- `ConfigTag::getBool(key, def)` for include attributes. -/
def tagGetBool (attr : Option Bool) (dflt : Bool) : Bool := attr.getD dflt

/-- Flag propagation of the `<include file=...>` branch of
`ParseStack::DoInclude` (src/src/configparser.cpp:372-387): the three `no*`
flags are or-ed with the attributes, but `missingokay` is set exactly when
the attribute is true — an inherited `FLAG_MISSING_OKAY` is cleared. -/
def doIncludeFileFlags (flags : IncludeFlags) (tag : IncludeTag) : IncludeFlags :=
  { noInc := flags.noInc || tagGetBool tag.noinclude false
  , noExec := flags.noExec || tagGetBool tag.noexec false
  , noEnv := flags.noEnv || tagGetBool tag.noenv false
  , missingOkay := tagGetBool tag.missingokay false }

/-- Flag propagation of the `<include directory=...>` branch
(src/src/configparser.cpp:391-398): `missingokay` is left as inherited. -/
def doIncludeDirectoryFlags (flags : IncludeFlags) (tag : IncludeTag) : IncludeFlags :=
  { flags with
    noInc := flags.noInc || tagGetBool tag.noinclude false
  , noExec := flags.noExec || tagGetBool tag.noexec false
  , noEnv := flags.noEnv || tagGetBool tag.noenv false }

/-- Flag propagation of the `<include executable=...>` branch
(src/src/configparser.cpp:422-431): `noexec` and `noenv` default to true. -/
def doIncludeExecutableFlags (flags : IncludeFlags) (tag : IncludeTag) : IncludeFlags :=
  { flags with
    noInc := flags.noInc || tagGetBool tag.noinclude false
  , noExec := flags.noExec || tagGetBool tag.noexec true
  , noEnv := flags.noEnv || tagGetBool tag.noenv true }

/-! ## m_shun (src/src/modules/m_shun.cpp) -/

/-- ASCII upper-casing, as used by the case-insensitive command-set
comparator `irc::insensitive_swo`. -/
def asciiUpperChar (c : Char) : Char :=
  if 'a' ≤ c && c ≤ 'z' then Char.ofNat (c.toNat - 32) else c

/-- Case-insensitive string equality. -/
def ciEq (a b : String) : Bool :=
  a.data.map asciiUpperChar == b.data.map asciiUpperChar

/-- Membership in an `insp::flat_set<std::string, irc::insensitive_swo>`. -/
def ciMem (xs : List String) (s : String) : Bool := xs.any (fun x => ciEq x s)

/-- `irc::spacesepstream` tokenisation: split on spaces, dropping empty
tokens (`allow_empty` defaults to false). -/
def spaceSepGo : List Char → List Char → List String
  | [], acc => if acc.isEmpty then [] else [String.mk acc.reverse]
  | c :: rest, acc =>
    if c == ' ' then
      if acc.isEmpty then spaceSepGo rest []
      else String.mk acc.reverse :: spaceSepGo rest []
    else spaceSepGo rest (c :: acc)

def spaceSep (s : String) : List String := spaceSepGo s.data []

/-- The `<shun>` tag as read by `ModuleShun::ReadConfig`. -/
structure ShunConfig where
  cleanedcommands : List String
  enabledcommands : List String
  allowtags : Bool
  allowconnect : Bool
  notifyuser : Bool

/-- `ModuleShun::ReadConfig` (src/src/modules/m_shun.cpp:199), applied to the
attribute values after `getString`/`getBool` defaulting. -/
def readShunConfig (cleanedStr enabledStr : String)
    (allowtags allowconnect notifyuser : Bool) : ShunConfig :=
  { cleanedcommands := spaceSep cleanedStr
  , enabledcommands := spaceSep enabledStr
  , allowtags := allowtags, allowconnect := allowconnect
  , notifyuser := notifyuser }

/-- `ModuleShun::IsShunned` (src/src/modules/m_shun.cpp:151). -/
def isShunned (allowconnect regAll hasIgnorePriv matchesShun : Bool) : Bool :=
  if allowconnect && !regAll then false
  else if hasIgnorePriv then false
  else matchesShun

/-- Outcome of `ModuleShun::OnPreCommand`: hook result, the (possibly
cleaned) parameters and client-only tags, and notices sent to the user. -/
structure PreCommandResult where
  res : ModResult
  params : List String
  tags : List String
  notices : List String
deriving DecidableEq, Repr

/-- `ModuleShun::OnPreCommand` (src/src/modules/m_shun.cpp:218). -/
def shunOnPreCommand (cfg : ShunConfig) (shunned validated : Bool)
    (command : String) (params : List String) (tags : List String) :
    PreCommandResult :=
  if validated || !shunned then ⟨.passthru, params, tags, []⟩
  else if !(ciMem cfg.enabledcommands command) then
    ⟨.deny, params, tags,
      if cfg.notifyuser then
        ["*** " ++ command ++
          " command not processed as you have been blocked from issuing commands."]
      else []⟩
  else
    -- Remove all client tags (keys beginning with '+') unless allowtags.
    let tags' :=
      if !cfg.allowtags then tags.filter (fun t => !(charAt t.data 0 == '+'))
      else tags
    let params' :=
      if ciMem cfg.cleanedcommands command then
        if command == "AWAY" && !params.isEmpty then []
        else if command == "PART" && 1 < params.length then params.dropLast
        else if command == "QUIT" && !params.isEmpty then []
        else params
      else params
    ⟨.passthru, params', tags', []⟩

/-! ## Timer manager (src/src/timer.cpp) -/

/-- A `Timer`: trigger time, interval (`secs`), repeat flag and an identity
used to model callback behaviour and firing order. -/
structure TimerEntry where
  trigger : Nat
  interval : Nat
  repeating : Bool
  id : Nat
deriving DecidableEq, Repr

/-- `TimerManager::AddTimer` (src/src/timer.cpp:84): `std::multimap::emplace`
keyed on the trigger inserts at the upper bound of the equal range, i.e.
after every entry with trigger ≤ the new one — insertion order is preserved
among equal triggers. -/
def addTimer (t : TimerEntry) : List TimerEntry → List TimerEntry
  | [] => [t]
  | x :: xs => if x.trigger ≤ t.trigger then x :: addTimer t xs else t :: x :: xs

/-- `TimerManager::TickTimers` (src/src/timer.cpp:49): pop entries in map
order while their trigger is ≤ `now`, invoke the callback (`tick`, keyed by
timer identity, models the return value of `Timer::Tick`), and re-insert a
repeating timer whose callback returned true at `now + interval`.  The C++
loop iterates the mutating map; `fuel` bounds its iterations.  Returns the
fired identities in order and the remaining map. -/
def tickTimers (tick : Nat → Bool) (now : Nat) :
    Nat → List TimerEntry → List Nat × List TimerEntry
  | 0, ts => ([], ts)
  | _ + 1, [] => ([], [])
  | fuel + 1, t :: ts =>
    if now < t.trigger then ([], t :: ts)
    else
      let rest :=
        if tick t.id && t.repeating then
          addTimer { t with trigger := now + t.interval } ts
        else ts
      let r := tickTimers tick now fuel rest
      (t.id :: r.1, r.2)

/-- Triggers are in ascending order (the multimap invariant). -/
def TimersSorted (s : List TimerEntry) : Prop :=
  List.Pairwise (fun a b => a.trigger ≤ b.trigger) s

/-- The number of timers due at `now` — an upper bound on the iterations the
tick loop can take before it stops (re-inserted timers are never due). -/
def dueCount (now : Nat) (s : List TimerEntry) : Nat :=
  s.countP (fun e => decide (e.trigger ≤ now))

/-- `s` contains `sub` as a substring (`std::string::find != npos`). -/
def strHasSub (s sub : String) : Prop :=
  ∃ l r : List Char, s.data = l ++ sub.data ++ r

/-! ## Concrete instances used to witness the theorems -/

/-- The two-file include cycle of the spec scenario: `a.conf` includes
`b.conf` and `b.conf` includes `a.conf`. -/
def fsC4 : String → Option (List String) :=
  fun p =>
    if p = "a.conf" then some ["b.conf"]
    else if p = "b.conf" then some ["a.conf"]
    else none

/-- An entity environment with `XYZ` set in the process environment and the
default variable table extended by `<define name="foo" value="bar">`. -/
def envC5 : EntityEnv :=
  { noenv := false
  , env := fun n => if n = "XYZ" then some "xyzvalue" else none
  , vars := defineVar defaultVars "foo" "bar" }

/-- Two one-shot timers A and B and a repeating timer C, all due at t = 5,
inserted in that order. -/
def timerA : TimerEntry := ⟨5, 5, false, 1⟩

def timerB : TimerEntry := ⟨5, 5, false, 2⟩

def timerC : TimerEntry := ⟨5, 7, true, 3⟩

/-- An allowable simple change (no parameter, handler allows). -/
def pitemOK : PItem := ⟨true, false, "", true, true⟩

/-- A ChangeList of 10 allowable changes. -/
def itemsC2 : List PItem := List.replicate 10 pitemOK

/-- A typical prefix-mode table: voice 10, halfop 20, op 30. -/
def samplePrefixModes : List PrefixModeInfo :=
  [⟨"voice", 10⟩, ⟨"op", 30⟩, ⟨"halfop", 20⟩]

/-- A local voiced (rank 10) user acting on an existing channel. -/
def ctxC1 : TryModeCtx :=
  { isLocal := true, rawModeResult := .passthru, chan := some "#test"
  , ourRank := 10, prefixModes := samplePrefixModes, watchers := []
  , isOper := false, operTypeName := "", hasModePermission := true }

/-- A key-like parameter channel mode requiring rank 20 in both directions. -/
def mhC1 : MHandler :=
  { name := "key", letter := 'k', params := .paramAlways, needsOper := false
  , levelRequired := fun _ => 20, accessCheck := fun _ => .passthru
  , onModeChange := fun c => (.allow, c.param) }

/-- A 300-character parameter, longer than `MODE_PARAM_MAX`. -/
def longParam : String := String.mk (List.replicate 300 'a')

/-- A channel on which a parameter mode is set with parameter `sekrit`. -/
def stC10 : ParamChanState := ⟨true, "sekrit"⟩

/-- The key-like handler with `ParamModeBase::OnModeChange` semantics bound
to the channel state `stC10` and an `OnSet` that stores the parameter as-is. -/
def mhC10 : MHandler :=
  { name := "key", letter := 'k', params := .paramAlways, needsOper := false
  , levelRequired := fun _ => 20, accessCheck := fun _ => .passthru
  , onModeChange := fun c =>
      ((paramModeOnModeChange (fun p => some p) stC10 c).1,
       (paramModeOnModeChange (fun p => some p) stC10 c).2.2) }

/-- A server-originated change (no ACL) on an existing channel. -/
def ctxC10 : TryModeCtx :=
  { isLocal := false, rawModeResult := .passthru, chan := some "#test"
  , ourRank := 0, prefixModes := [], watchers := []
  , isOper := false, operTypeName := "", hasModePermission := true }

/-- A removing change carrying a parameter longer than `MODE_PARAM_MAX`. -/
def changeC10 : Change := ⟨false, longParam⟩

/-! ## Theorems -/

/-- A mask that already contains both a `!` and an `@` is left unchanged by
`cleanMask`: every branch that rewrites the mask requires one of the two
separators to be absent. -/
theorem cleanMask_of_pling_at {m : List Char} (hp : m.contains '!' = true)
    (ha : m.contains '@' = true) : cleanMask m = m := by
  unfold cleanMask
  simp only [hp, ha, Bool.not_true, Bool.false_and, Bool.and_false]
  split <;> simp

theorem contains_append_right {l₁ l₂ : List Char} {c : Char}
    (h : l₂.contains c = true) : (l₁ ++ l₂).contains c = true := by
  have h' : c ∈ l₂ := by simpa using h
  simpa using List.mem_append.mpr (Or.inr h')

theorem contains_append_left {l₁ l₂ : List Char} {c : Char}
    (h : l₁.contains c = true) : (l₁ ++ l₂).contains c = true := by
  have h' : c ∈ l₁ := by simpa using h
  simpa using List.mem_append.mpr (Or.inl h')

/-- Every branch of `cleanMask` either returns the mask unchanged or produces
a mask containing both `!` and `@`. -/
theorem cleanMask_fix_or_full (m : List Char) :
    cleanMask m = m ∨
      ((cleanMask m).contains '!' = true ∧ (cleanMask m).contains '@' = true) := by
  simp only [cleanMask]
  split_ifs with h1 h2 h3 h4 h5
  · exact Or.inl rfl
  · exact Or.inr ⟨contains_append_right (by decide), contains_append_right (by decide)⟩
  · exact Or.inr ⟨contains_append_left (by decide), contains_append_left (by decide)⟩
  · have hat : m.contains '@' = true := ((Bool.and_eq_true _ _).mp h4).2
    exact Or.inr ⟨contains_append_left (by decide), contains_append_right hat⟩
  · have hpl : m.contains '!' = true := ((Bool.and_eq_true _ _).mp h5).1
    exact Or.inr ⟨contains_append_left hpl, contains_append_right (by decide)⟩
  · exact Or.inl rfl

theorem cropParam_adding (c : Change) : (cropParam c).adding = c.adding := by
  unfold cropParam; split <;> rfl

theorem cropParam_idem (c : Change) : cropParam (cropParam c) = cropParam c := by
  rcases c with ⟨adding, param⟩
  unfold cropParam
  by_cases h : (decide (MODE_PARAM_MAX < param.length) && adding) = true
  · have h1 : MODE_PARAM_MAX < param.length :=
      of_decide_eq_true ((Bool.and_eq_true _ _).mp h).1
    have hlen : (String.mk (param.data.take MODE_PARAM_MAX)).length =
        min MODE_PARAM_MAX param.length := by
      show (param.data.take MODE_PARAM_MAX).length = _
      exact List.length_take _ _
    have h2 : ¬(MODE_PARAM_MAX < (String.mk (param.data.take MODE_PARAM_MAX)).length) := by
      rw [hlen]
      omega
    simp [h, h2]
  · simp [h]

/-- The `neededmh` selection loop of `TryMode` is correct: it returns `none`
exactly when no prefix mode has sufficient rank, and otherwise a sufficient
prefix mode of minimal rank. -/
theorem neededPrefixModeGo_spec (needed : Nat) (l : List PrefixModeInfo) :
    ∀ acc : Option PrefixModeInfo, (∀ b, acc = some b → needed ≤ b.rank) →
      ((neededPrefixModeGo needed l acc = none →
          acc = none ∧ ∀ q ∈ l, q.rank < needed) ∧
       (∀ pm, neededPrefixModeGo needed l acc = some pm →
          needed ≤ pm.rank ∧ (∀ q ∈ l, needed ≤ q.rank → pm.rank ≤ q.rank) ∧
          (∀ b, acc = some b → pm.rank ≤ b.rank))) := by
  induction l with
  | nil =>
    intro acc hacc
    refine ⟨fun h => ⟨h, by simp⟩, fun pm hpm => ?_⟩
    refine ⟨hacc pm hpm, by simp, fun b hb => ?_⟩
    have hpm' : acc = some pm := hpm
    rw [hpm'] at hb
    cases hb
    exact Nat.le_refl _
  | cons pm0 rest ih =>
    intro acc hacc
    simp only [neededPrefixModeGo]
    by_cases hn : needed ≤ pm0.rank
    · -- pm0 is sufficient: the accumulator is updated
      cases acc with
      | none =>
        simp only [hn, if_pos]
        have ih' := ih (some pm0) (by intro b hb; cases hb; exact hn)
        refine ⟨fun h => absurd ((ih'.1 h).1) (by simp), fun pm hpm => ?_⟩
        obtain ⟨h1, h2, h3⟩ := ih'.2 pm hpm
        refine ⟨h1, ?_, fun b hb => by cases hb⟩
        intro q hq hqr
        rcases List.mem_cons.mp hq with rfl | hq'
        · exact h3 q rfl
        · exact h2 q hq' hqr
      | some best =>
        have hbest : needed ≤ best.rank := hacc best rfl
        simp only [hn, if_pos]
        by_cases hlt : pm0.rank < best.rank
        · simp only [hlt, if_pos]
          have ih' := ih (some pm0) (by intro b hb; cases hb; exact hn)
          refine ⟨fun h => absurd ((ih'.1 h).1) (by simp), fun pm hpm => ?_⟩
          obtain ⟨h1, h2, h3⟩ := ih'.2 pm hpm
          refine ⟨h1, ?_, fun b hb => ?_⟩
          · intro q hq hqr
            rcases List.mem_cons.mp hq with rfl | hq'
            · exact h3 q rfl
            · exact h2 q hq' hqr
          · cases hb
            exact Nat.le_trans (h3 pm0 rfl) (Nat.le_of_lt hlt)
        · simp only [hlt, if_neg, if_false]
          have ih' := ih (some best) (by intro b hb; cases hb; exact hbest)
          refine ⟨fun h => absurd ((ih'.1 h).1) (by simp), fun pm hpm => ?_⟩
          obtain ⟨h1, h2, h3⟩ := ih'.2 pm hpm
          refine ⟨h1, ?_, fun b hb => ?_⟩
          · intro q hq hqr
            rcases List.mem_cons.mp hq with rfl | hq'
            · exact Nat.le_trans (h3 best rfl) (Nat.le_of_not_lt hlt)
            · exact h2 q hq' hqr
          · cases hb
            exact h3 best rfl
    · -- pm0 is insufficient: the accumulator is kept
      simp only [hn, if_neg, if_false]
      have ih' := ih acc hacc
      refine ⟨fun h => ?_, fun pm hpm => ?_⟩
      · obtain ⟨h1, h2⟩ := ih'.1 h
        refine ⟨h1, fun q hq => ?_⟩
        rcases List.mem_cons.mp hq with rfl | hq'
        · exact Nat.lt_of_not_le hn
        · exact h2 q hq'
      · obtain ⟨h1, h2, h3⟩ := ih'.2 pm hpm
        refine ⟨h1, fun q hq hqr => ?_, h3⟩
        rcases List.mem_cons.mp hq with rfl | hq'
        · exact absurd hqr hn
        · exact h2 q hq' hqr

/-- C1: for a locally-originated channel mode change whose handler access
check passes through, if the actor's highest prefix rank is strictly below
the rank the handler requires for this direction, then `TryMode` denies the
change without invoking `OnModeChange` and writes `ERR_CHANOPRIVSNEEDED`
naming the lowest-ranked sufficient prefix mode (or a generic refusal when
no prefix mode suffices). -/
theorem tryMode_chanprivs (ctx : TryModeCtx) (mh : MHandler) (c0 : Change)
    (hl : ctx.isLocal = true) (hc : ctx.chan.isSome = true)
    (hraw : ctx.rawModeResult = ModResult.passthru)
    (hac : mh.accessCheck (cropParam c0) = ModResult.passthru)
    (hrank : ctx.ourRank < mh.levelRequired c0.adding) :
    (tryMode ctx mh c0 false).action = ModeAction.deny ∧
    (tryMode ctx mh c0 false).handlerCalled = false ∧
    ((∃ pm, neededPrefixMode ctx.prefixModes (mh.levelRequired c0.adding) = some pm ∧
        mh.levelRequired c0.adding ≤ pm.rank ∧
        (∀ q ∈ ctx.prefixModes, mh.levelRequired c0.adding ≤ q.rank → pm.rank ≤ q.rank) ∧
        (tryMode ctx mh c0 false).numerics =
          [(ERR_CHANOPRIVSNEEDED, [ctx.chan.getD "",
            chanPrivsNeededMsg pm.name c0.adding mh.letter])]) ∨
     ((∀ q ∈ ctx.prefixModes, q.rank < mh.levelRequired c0.adding) ∧
        (tryMode ctx mh c0 false).numerics =
          [(ERR_CHANOPRIVSNEEDED, [ctx.chan.getD "",
            chanPrivsNeededGenericMsg c0.adding mh.letter])])) := by
  have hadd := cropParam_adding c0
  have hspec := neededPrefixModeGo_spec (mh.levelRequired c0.adding)
    ctx.prefixModes none (by intro b hb; cases hb)
  rcases hpm : neededPrefixMode ctx.prefixModes (mh.levelRequired c0.adding)
      with _ | pm
  · -- no prefix mode suffices: generic refusal
    have hall := (hspec.1 hpm).2
    simp only [tryMode, hl, hraw, hc, hac, hadd, hpm, hrank, if_pos,
      Bool.true_and, Bool.and_true, Bool.not_false, Bool.and_self]
    refine ⟨rfl, rfl, Or.inr ⟨hall, rfl⟩⟩
  · -- a sufficient prefix mode is named
    obtain ⟨h1, h2, _⟩ := hspec.2 pm hpm
    simp only [tryMode, hl, hraw, hc, hac, hadd, hpm, hrank, if_pos,
      Bool.true_and, Bool.and_true, Bool.not_false, Bool.and_self]
    exact ⟨rfl, rfl, Or.inl ⟨pm, rfl, h1, h2, rfl⟩⟩

/-- C1 witness: a rank-10 (voiced) local user trying to set the key mode,
which requires rank 20; the minimal sufficient prefix mode is halfop. -/
theorem tryMode_chanprivs_witness :
    (tryMode ctxC1 mhC1 ⟨true, "pass"⟩ false).action = ModeAction.deny ∧
    (tryMode ctxC1 mhC1 ⟨true, "pass"⟩ false).handlerCalled = false ∧
    ((∃ pm, neededPrefixMode ctxC1.prefixModes (mhC1.levelRequired true) = some pm ∧
        mhC1.levelRequired true ≤ pm.rank ∧
        (∀ q ∈ ctxC1.prefixModes, mhC1.levelRequired true ≤ q.rank → pm.rank ≤ q.rank) ∧
        (tryMode ctxC1 mhC1 ⟨true, "pass"⟩ false).numerics =
          [(ERR_CHANOPRIVSNEEDED, [ctxC1.chan.getD "",
            chanPrivsNeededMsg pm.name true mhC1.letter])]) ∨
     ((∀ q ∈ ctxC1.prefixModes, q.rank < mhC1.levelRequired true) ∧
        (tryMode ctxC1 mhC1 ⟨true, "pass"⟩ false).numerics =
          [(ERR_CHANOPRIVSNEEDED, [ctxC1.chan.getD "",
            chanPrivsNeededGenericMsg true mhC1.letter])])) :=
  tryMode_chanprivs ctxC1 mhC1 ⟨true, "pass"⟩ rfl rfl rfl rfl (by decide)

/-- C3: the parameter-mode state machine of `ParamModeBase::OnModeChange`:
setting a fresh mode with a valid parameter accepted by `OnSet` stores it;
removing clears the mode and its parameter; re-adding the identical parameter
is denied and leaves the state unchanged. -/
theorem paramMode_roundtrip (onSet : String → Option String) (P : String)
    (hset : onSet P = some P) (hne : P ≠ "") :
    (∀ s, paramModeOnModeChange onSet ⟨false, s⟩ ⟨true, P⟩ =
        (ModeAction.allow, ⟨true, P⟩, P)) ∧
    getModeParameter ⟨true, P⟩ = P ∧
    (∀ Q, paramModeOnModeChange onSet ⟨true, P⟩ ⟨false, Q⟩ =
        (ModeAction.allow, ⟨false, ""⟩, Q)) ∧
    getModeParameter ⟨false, ""⟩ = "" ∧
    paramModeOnModeChange onSet ⟨true, P⟩ ⟨true, P⟩ =
        (ModeAction.deny, ⟨true, P⟩, P) := by
  have hne' : ("" == P) = false := by
    simp only [beq_eq_false_iff_ne, ne_eq]
    exact fun h => hne h.symm
  refine ⟨fun s => ?_, rfl, fun Q => rfl, rfl, ?_⟩
  · simp only [paramModeOnModeChange, getModeParameter, if_true, if_false,
      Bool.false_eq_true, hne', hset]
  · simp only [paramModeOnModeChange, getModeParameter, if_pos, BEq.refl,
      if_true]

/-- C3 witness at the parameter `secret` with the identity `OnSet`. -/
theorem paramMode_roundtrip_witness :
    (∀ s, paramModeOnModeChange (fun p => some p) ⟨false, s⟩ ⟨true, "secret"⟩ =
        (ModeAction.allow, ⟨true, "secret"⟩, "secret")) ∧
    getModeParameter ⟨true, "secret"⟩ = "secret" ∧
    (∀ Q, paramModeOnModeChange (fun p => some p) ⟨true, "secret"⟩ ⟨false, Q⟩ =
        (ModeAction.allow, ⟨false, ""⟩, Q)) ∧
    getModeParameter ⟨false, ""⟩ = "" ∧
    paramModeOnModeChange (fun p => some p) ⟨true, "secret"⟩ ⟨true, "secret"⟩ =
        (ModeAction.deny, ⟨true, "secret"⟩, "secret") :=
  paramMode_roundtrip (fun p => some p) "secret" rfl (by decide)

set_option maxRecDepth 4000 in
/-- C10 counterexample: a removing change with a parameter longer than
`MODE_PARAM_MAX` is applied (the handler allows it) and the applied change
still carries the over-long parameter, so an applied mode change can carry a
parameter longer than `MODE_PARAM_MAX`. -/
theorem tryMode_long_removal_applied :
    (tryMode ctxC10 mhC10 changeC10 true).action = ModeAction.allow ∧
    MODE_PARAM_MAX < (tryMode ctxC10 mhC10 changeC10 true).param.length := by
  constructor
  · rfl
  · decide

/-- C10 amended: `TryMode` behaves as if the incoming change had been
cropped up-front, so every listener, access check and handler sees only the
cropped parameter; the crop truncates the parameter of an adding change to
at most `MODE_PARAM_MAX` characters and leaves removing changes untouched. -/
theorem tryMode_crop (ctx : TryModeCtx) (mh : MHandler) (c : Change)
    (skipACL : Bool) :
    tryMode ctx mh c skipACL = tryMode ctx mh (cropParam c) skipACL ∧
    (c.adding = true →
      (cropParam c).param.length = min c.param.length MODE_PARAM_MAX) ∧
    (c.adding = false → cropParam c = c) := by
  refine ⟨?_, ?_, ?_⟩
  · simp only [tryMode, cropParam_idem, cropParam_adding]
  · intro hadd
    unfold cropParam
    by_cases h : MODE_PARAM_MAX < c.param.length
    · have hcond : (decide (MODE_PARAM_MAX < c.param.length) && c.adding) = true := by
        simp [h, hadd]
      rw [if_pos hcond]
      show (c.param.data.take MODE_PARAM_MAX).length = _
      rw [List.length_take]
      have hsl : c.param.length = c.param.data.length := rfl
      omega
    · have hcond : ¬((decide (MODE_PARAM_MAX < c.param.length) && c.adding) = true) := by
        simp [h]
      rw [if_neg hcond]
      omega
  · intro hadd
    unfold cropParam
    simp [hadd]

/-- C10 amended witness at a 300-character adding parameter. -/
theorem tryMode_crop_witness :
    (tryMode ctxC10 mhC10 ⟨true, longParam⟩ false =
      tryMode ctxC10 mhC10 (cropParam ⟨true, longParam⟩) false) ∧
    ((true : Bool) = true →
      (cropParam ⟨true, longParam⟩).param.length =
        min (longParam : String).length MODE_PARAM_MAX) ∧
    ((true : Bool) = false → cropParam ⟨true, longParam⟩ = ⟨true, longParam⟩) :=
  tryMode_crop ctxC10 mhC10 ⟨true, longParam⟩ false

/-- C6: `ModeParser::CleanMask` is idempotent, `clean(clean(m)) == clean(m)`
for every mask `m`; in particular ext-ban inputs (second character `:`) pass
through unchanged and re-cleaning any cleaned mask is a no-op. -/
theorem cleanMask_idempotent (m : List Char) :
    cleanMask (cleanMask m) = cleanMask m := by
  rcases cleanMask_fix_or_full m with h | ⟨h1, h2⟩
  · rw [h, h]
  · exact cleanMask_of_pling_at h1 h2

theorem processLoop_cap (maxModes : Nat) (merge : Bool) :
    ∀ (l applied : List PItem), applied.length < maxModes →
      (processLoop maxModes merge l applied).2.length ≤ maxModes := by
  intro l
  induction l with
  | nil =>
    intro applied h
    exact Nat.le_of_lt h
  | cons item rest ih =>
    intro applied h
    simp only [processLoop]
    split
    · exact ih applied h
    · split
      · exact ih applied h
      · split
        · exact ih applied h
        · split
          · exact ih applied h
          · split
            · simp only [List.length_append, List.length_singleton]
              omega
            · rename_i hlt
              have hlt' : ¬(maxModes ≤ applied.length + 1) := by
                simpa using hlt
              have hgrow : (applied ++ [item]).length < maxModes := by
                simp only [List.length_append, List.length_singleton]
                omega
              exact ih (applied ++ [item]) hgrow

/-- When every item passes all filters, the `ProcessSingle` loop applies
exactly `maxmodes - |applied|` items (or all of them if fewer remain) and
counts just the visited ones. -/
theorem processLoop_all_applies (maxModes : Nat) (merge : Bool) :
    ∀ (l applied : List PItem), (∀ it ∈ l, itemApplies merge it = true) →
      applied.length < maxModes →
      processLoop maxModes merge l applied =
        (min (maxModes - applied.length) l.length,
         applied ++ l.take (maxModes - applied.length)) := by
  intro l
  induction l with
  | nil =>
    intro applied _ _
    simp [processLoop]
  | cons item rest ih =>
    intro applied hall hlen
    have happly : itemApplies merge item = true := hall item (List.mem_cons_self _ _)
    have h1 : item.hasHandler = true := by
      have := (Bool.and_eq_true _ _).mp ((Bool.and_eq_true _ _).mp happly).1
      exact this.1
    have h2 : (!item.needsParam ||
        (isModeParamValid item.param && !(merge && !item.mergeApply))) = true := by
      have := (Bool.and_eq_true _ _).mp ((Bool.and_eq_true _ _).mp happly).1
      exact this.2
    have h3 : item.allow = true := ((Bool.and_eq_true _ _).mp happly).2
    have hb1 : (item.needsParam && !(isModeParamValid item.param)) = false := by
      rcases Bool.or_eq_true _ _ |>.mp h2 with h | h
      · have hnp : item.needsParam = false := by simpa using h
        simp [hnp]
      · have hv : isModeParamValid item.param = true := ((Bool.and_eq_true _ _).mp h).1
        simp [hv]
    have hb2 : (item.needsParam && (merge && !item.mergeApply)) = false := by
      rcases Bool.or_eq_true _ _ |>.mp h2 with h | h
      · have hnp : item.needsParam = false := by simpa using h
        simp [hnp]
      · have hm : (!(merge && !item.mergeApply)) = true := ((Bool.and_eq_true _ _).mp h).2
        have hm' : (merge && !item.mergeApply) = false := by
          revert hm
          cases merge && !item.mergeApply <;> simp
        simp [hm']
    simp only [processLoop, h1, hb1, hb2, h3, Bool.not_true, Bool.false_eq_true,
      if_false]
    by_cases hstop : maxModes ≤ (applied ++ [item]).length
    · rw [if_pos hstop]
      have hm : maxModes = applied.length + 1 := by
        simp only [List.length_append, List.length_singleton] at hstop
        omega
      have hmin : min (maxModes - applied.length) (item :: rest).length = 1 := by
        simp only [List.length_cons]
        omega
      have htake : (item :: rest).take (maxModes - applied.length) = [item] := by
        have : maxModes - applied.length = 1 := by omega
        simp [this]
      rw [hmin, htake]
    · rw [if_neg hstop]
      have hlen' : (applied ++ [item]).length < maxModes := by
        simp only [List.length_append, List.length_singleton] at *
        omega
      rw [ih (applied ++ [item]) (fun it hit => hall it (List.mem_cons_of_mem _ hit)) hlen']
      have hstop' : ¬(6 ≤ 0) ∨ True := Or.inr trivial
      have hsucc : maxModes - applied.length = (maxModes - (applied ++ [item]).length) + 1 := by
        simp only [List.length_append, List.length_singleton] at *
        omega
      have hlt1 : applied.length + 1 < maxModes := by
        simpa using hlen'
      simp only [Prod.mk.injEq]
      refine ⟨?_, ?_⟩
      · simp only [List.length_cons, List.length_append, List.length_singleton,
          List.length_nil]
        omega
      · rw [hsucc, List.take_succ_cons]
        simp

/-- C2: processing a ChangeList obeys the `<limits:maxmodes>` cap — one
`ProcessSingle` invocation never applies (and thus never broadcasts) more
than `maxmodes` changes — and with `maxmodes = 6` a list of 10 allowable
changes has exactly 6 applied by the first invocation and the remaining 4 by
the next one; `Process` therefore emits the two batches `take 6` / `drop 6`. -/
theorem processSingle_cap_and_split :
    (∀ (maxModes : Nat) (merge : Bool) (items : List PItem) (b : Nat),
        0 < maxModes →
        (processSingle maxModes merge items b).2.length ≤ maxModes) ∧
    (∀ (items : List PItem) (merge : Bool),
        items.length = 10 → (∀ it ∈ items, itemApplies merge it = true) →
        processSingle 6 merge items 0 = (6, items.take 6) ∧
        processSingle 6 merge items 6 = (4, items.drop 6) ∧
        processFuel 6 merge items 2 0 = [items.take 6, items.drop 6]) := by
  constructor
  · intro maxModes merge items b h
    exact processLoop_cap maxModes merge (items.drop b) [] (by simpa using h)
  · intro items merge hlen hall
    have hall6 : ∀ it ∈ items.drop 6, itemApplies merge it = true :=
      fun it hit => hall it (List.mem_of_mem_drop hit)
    have hd6 : (items.drop 6).length = 4 := by
      simp [List.length_drop, hlen]
    have h0 : processSingle 6 merge items 0 = (6, items.take 6) := by
      unfold processSingle
      rw [List.drop_zero]
      rw [processLoop_all_applies 6 merge items [] hall (by simp)]
      simp [hlen]
    have h6 : processSingle 6 merge items 6 = (4, items.drop 6) := by
      unfold processSingle
      rw [processLoop_all_applies 6 merge (items.drop 6) [] hall6 (by simp)]
      rw [List.take_of_length_le (le_of_eq_of_le hd6 (by norm_num))]
      simp only [List.length_nil, Nat.sub_zero, List.nil_append, hd6]
      norm_num
    refine ⟨h0, h6, ?_⟩
    simp only [processFuel, h0, h6, hlen]
    norm_num

/-- C2 witness: ten allowable simple changes with `maxmodes = 6`. -/
theorem processSingle_cap_and_split_witness :
    (processSingle 6 false itemsC2 0).2.length ≤ 6 ∧
    (processSingle 6 false itemsC2 0 = (6, itemsC2.take 6) ∧
     processSingle 6 false itemsC2 6 = (4, itemsC2.drop 6) ∧
     processFuel 6 false itemsC2 2 0 = [itemsC2.take 6, itemsC2.drop 6]) :=
  ⟨processSingle_cap_and_split.1 6 false itemsC2 0 (by decide),
   processSingle_cap_and_split.2 itemsC2 false (by decide) (by decide)⟩

theorem strHasSub_of_parts (pre mid post : String) (s : String)
    (h : s.data = pre.data ++ mid.data ++ post.data) : strHasSub s mid :=
  ⟨pre.data, post.data, h⟩

/-- The recursion error names the path and contains both diagnostic
substrings. -/
theorem recursionErrorMsg_parts (isexec : Bool) (path : String) :
    strHasSub (recursionErrorMsg isexec path) path ∧
    strHasSub (recursionErrorMsg isexec path) "included recursively" ∧
    strHasSub (recursionErrorMsg isexec path) "looped inclusion" := by
  have hdata : (recursionErrorMsg isexec path).data =
      (if isexec then "Executable " else "File ").data ++ path.data ++
        (" is included recursively (looped inclusion)").data := by
    unfold recursionErrorMsg
    rw [String.data_append, String.data_append]
  refine ⟨⟨(if isexec then "Executable " else "File ").data,
      (" is included recursively (looped inclusion)").data, hdata⟩, ?_, ?_⟩
  · refine ⟨(if isexec then "Executable " else "File ").data ++ path.data ++
      (" is ").data, (" (looped inclusion)").data, ?_⟩
    rw [hdata]
    have : (" is included recursively (looped inclusion)" : String).data =
        (" is " : String).data ++ ("included recursively" : String).data ++
          (" (looped inclusion)" : String).data := by decide
    rw [this]
    simp [List.append_assoc]
  · refine ⟨(if isexec then "Executable " else "File ").data ++ path.data ++
      (" is included recursively (").data, (")").data, ?_⟩
    rw [hdata]
    have : (" is included recursively (looped inclusion)" : String).data =
        (" is included recursively (" : String).data ++
          ("looped inclusion" : String).data ++ (")" : String).data := by decide
    rw [this]
    simp [List.append_assoc]

/-- C4: opening a config file whose path is already on the stack of
currently-open include paths fails immediately — the file is not parsed
again (the trace of opened files is empty) — with an error naming the path
and containing both "included recursively" and "looped inclusion"; in
particular the two-file cycle `a.conf` ↔ `b.conf` parses each file once and
then fails with that error. -/
theorem parseFile_cycle :
    (∀ (fs : String → Option (List String)) (fuel : Nat) (reading : List String)
        (isexec : Bool) (path : String), path ∈ reading →
      parseFileGo fs (fuel + 1) reading isexec path
          = ([], some (recursionErrorMsg isexec path)) ∧
      strHasSub (recursionErrorMsg isexec path) path ∧
      strHasSub (recursionErrorMsg isexec path) "included recursively" ∧
      strHasSub (recursionErrorMsg isexec path) "looped inclusion") ∧
    (∀ (fs : String → Option (List String)) (fuel : Nat) (a b : String),
      fs a = some [b] → fs b = some [a] → a ≠ b →
      parseFileGo fs (fuel + 3) [] false a
          = ([a, b], some (recursionErrorMsg false a))) := by
  constructor
  · intro fs fuel reading isexec path hmem
    refine ⟨?_, recursionErrorMsg_parts isexec path⟩
    rw [parseFileGo]
    simp [hmem]
  · intro fs fuel a b hfa hfb hab
    have hba : ¬(b = a) := fun h => hab h.symm
    have h1 : parseFileGo fs (fuel + 1) [a, b] false a
        = ([], some (recursionErrorMsg false a)) := by
      rw [parseFileGo]
      simp
    have h2 : parseIncludes fs (fuel + 1) [a, b] [a]
        = ([], some (recursionErrorMsg false a)) := by
      rw [parseIncludes, h1]
    have h3 : parseFileGo fs (fuel + 2) [a] false b
        = ([b], some (recursionErrorMsg false a)) := by
      rw [parseFileGo]
      simp only [List.mem_singleton, hba, if_false, hfb, List.singleton_append]
      rw [h2]
    have h4 : parseIncludes fs (fuel + 2) [a] [b]
        = ([b], some (recursionErrorMsg false a)) := by
      rw [parseIncludes, h3]
    rw [parseFileGo]
    simp only [List.not_mem_nil, if_false, hfa, List.nil_append]
    rw [h4]

/-- C8 counterexample: an include tag with no attributes clears an inherited
`missingokay` flag for a `file` include — the flag does not inherit. -/
theorem doInclude_missingokay_weakened :
    (doIncludeFileFlags ⟨false, false, false, true⟩ ⟨none, none, none, none⟩).missingOkay
      = false := rfl

/-- C8 amended: `noinclude`, `noexec` and `noenv` inherit and can only be
strengthened in every include branch (an active flag stays active and a true
attribute activates it); `missingokay` however inherits only for directory
and executable includes — a `file` include sets it exactly from the tag
attribute, discarding the inherited value. -/
theorem doInclude_flags_strengthen (flags : IncludeFlags) (tag : IncludeTag) :
    ((flags.noInc = true →
        (doIncludeFileFlags flags tag).noInc = true ∧
        (doIncludeDirectoryFlags flags tag).noInc = true ∧
        (doIncludeExecutableFlags flags tag).noInc = true) ∧
     (flags.noExec = true →
        (doIncludeFileFlags flags tag).noExec = true ∧
        (doIncludeDirectoryFlags flags tag).noExec = true ∧
        (doIncludeExecutableFlags flags tag).noExec = true) ∧
     (flags.noEnv = true →
        (doIncludeFileFlags flags tag).noEnv = true ∧
        (doIncludeDirectoryFlags flags tag).noEnv = true ∧
        (doIncludeExecutableFlags flags tag).noEnv = true)) ∧
    ((tag.noinclude = some true →
        (doIncludeFileFlags flags tag).noInc = true ∧
        (doIncludeDirectoryFlags flags tag).noInc = true ∧
        (doIncludeExecutableFlags flags tag).noInc = true) ∧
     (tag.noexec = some true →
        (doIncludeFileFlags flags tag).noExec = true ∧
        (doIncludeDirectoryFlags flags tag).noExec = true ∧
        (doIncludeExecutableFlags flags tag).noExec = true) ∧
     (tag.noenv = some true →
        (doIncludeFileFlags flags tag).noEnv = true ∧
        (doIncludeDirectoryFlags flags tag).noEnv = true ∧
        (doIncludeExecutableFlags flags tag).noEnv = true)) ∧
    ((doIncludeFileFlags flags tag).missingOkay = tagGetBool tag.missingokay false ∧
     (doIncludeDirectoryFlags flags tag).missingOkay = flags.missingOkay ∧
     (doIncludeExecutableFlags flags tag).missingOkay = flags.missingOkay) := by
  refine ⟨⟨?_, ?_, ?_⟩, ⟨?_, ?_, ?_⟩, rfl, rfl, rfl⟩ <;>
    intro h <;>
    simp [doIncludeFileFlags, doIncludeDirectoryFlags, doIncludeExecutableFlags,
      tagGetBool, h]

/-- C8 amended witness: all flags inactive in the includer, every attribute
set to true. -/
theorem doInclude_flags_strengthen_witness :
    (((⟨false, false, false, false⟩ : IncludeFlags).noInc = true →
        (doIncludeFileFlags ⟨false, false, false, false⟩
          ⟨some true, some true, some true, some true⟩).noInc = true ∧
        (doIncludeDirectoryFlags ⟨false, false, false, false⟩
          ⟨some true, some true, some true, some true⟩).noInc = true ∧
        (doIncludeExecutableFlags ⟨false, false, false, false⟩
          ⟨some true, some true, some true, some true⟩).noInc = true) ∧
     ((⟨false, false, false, false⟩ : IncludeFlags).noExec = true →
        (doIncludeFileFlags ⟨false, false, false, false⟩
          ⟨some true, some true, some true, some true⟩).noExec = true ∧
        (doIncludeDirectoryFlags ⟨false, false, false, false⟩
          ⟨some true, some true, some true, some true⟩).noExec = true ∧
        (doIncludeExecutableFlags ⟨false, false, false, false⟩
          ⟨some true, some true, some true, some true⟩).noExec = true) ∧
     ((⟨false, false, false, false⟩ : IncludeFlags).noEnv = true →
        (doIncludeFileFlags ⟨false, false, false, false⟩
          ⟨some true, some true, some true, some true⟩).noEnv = true ∧
        (doIncludeDirectoryFlags ⟨false, false, false, false⟩
          ⟨some true, some true, some true, some true⟩).noEnv = true ∧
        (doIncludeExecutableFlags ⟨false, false, false, false⟩
          ⟨some true, some true, some true, some true⟩).noEnv = true)) ∧
    (((⟨some true, some true, some true, some true⟩ : IncludeTag).noinclude = some true →
        (doIncludeFileFlags ⟨false, false, false, false⟩
          ⟨some true, some true, some true, some true⟩).noInc = true ∧
        (doIncludeDirectoryFlags ⟨false, false, false, false⟩
          ⟨some true, some true, some true, some true⟩).noInc = true ∧
        (doIncludeExecutableFlags ⟨false, false, false, false⟩
          ⟨some true, some true, some true, some true⟩).noInc = true) ∧
     ((⟨some true, some true, some true, some true⟩ : IncludeTag).noexec = some true →
        (doIncludeFileFlags ⟨false, false, false, false⟩
          ⟨some true, some true, some true, some true⟩).noExec = true ∧
        (doIncludeDirectoryFlags ⟨false, false, false, false⟩
          ⟨some true, some true, some true, some true⟩).noExec = true ∧
        (doIncludeExecutableFlags ⟨false, false, false, false⟩
          ⟨some true, some true, some true, some true⟩).noExec = true) ∧
     ((⟨some true, some true, some true, some true⟩ : IncludeTag).noenv = some true →
        (doIncludeFileFlags ⟨false, false, false, false⟩
          ⟨some true, some true, some true, some true⟩).noEnv = true ∧
        (doIncludeDirectoryFlags ⟨false, false, false, false⟩
          ⟨some true, some true, some true, some true⟩).noEnv = true ∧
        (doIncludeExecutableFlags ⟨false, false, false, false⟩
          ⟨some true, some true, some true, some true⟩).noEnv = true)) ∧
    ((doIncludeFileFlags ⟨false, false, false, false⟩
        ⟨some true, some true, some true, some true⟩).missingOkay =
          tagGetBool (some true) false ∧
     (doIncludeDirectoryFlags ⟨false, false, false, false⟩
        ⟨some true, some true, some true, some true⟩).missingOkay =
          (⟨false, false, false, false⟩ : IncludeFlags).missingOkay ∧
     (doIncludeExecutableFlags ⟨false, false, false, false⟩
        ⟨some true, some true, some true, some true⟩).missingOkay =
          (⟨false, false, false, false⟩ : IncludeFlags).missingOkay) :=
  doInclude_flags_strengthen ⟨false, false, false, false⟩
    ⟨some true, some true, some true, some true⟩

/-- C4 witness: re-entry of an open path, and the `a.conf` ↔ `b.conf` cycle
of the spec scenario. -/
theorem parseFile_cycle_witness :
    (parseFileGo fsC4 (0 + 1) ["x.conf"] false "x.conf"
        = ([], some (recursionErrorMsg false "x.conf")) ∧
      strHasSub (recursionErrorMsg false "x.conf") "x.conf" ∧
      strHasSub (recursionErrorMsg false "x.conf") "included recursively" ∧
      strHasSub (recursionErrorMsg false "x.conf") "looped inclusion") ∧
    parseFileGo fsC4 (0 + 3) [] false "a.conf"
        = (["a.conf", "b.conf"], some (recursionErrorMsg false "a.conf")) :=
  ⟨parseFile_cycle.1 fsC4 0 ["x.conf"] false "x.conf" (by decide),
   parseFile_cycle.2 fsC4 0 "a.conf" "b.conf" (by decide) (by decide) (by decide)⟩

theorem parseDigitsGo_all (isDig : Char → Bool) (dval : Char → Nat) (base : Nat) :
    ∀ (ds : List Char) (acc : Nat), (∀ c ∈ ds, isDig c = true) →
      (parseDigitsGo isDig dval base ds acc).2 = [] := by
  intro ds
  induction ds with
  | nil => intro acc _; rfl
  | cons c rest ih =>
    intro acc hall
    have hc : isDig c = true := hall c (List.mem_cons_self _ _)
    simp only [parseDigitsGo, hc, if_true]
    exact ih _ (fun x hx => hall x (List.mem_cons_of_mem _ hx))

/-- C5: entity expansion in quoted config values: `&#65;` and `&#x41;` give
`A`; any well-formed decimal reference in 0..255 yields that byte and larger
ones are errors (a malformed one like `&#1a;` is an error); `&amp;` and
`&quot;` give `&` and `"` from the initial variable table; `&env.XYZ;` gives
the value of the environment variable, and is an error when the variable is
unset or the file was included with `noenv`; `&foo;` gives the value
installed by `<define>`, and an undefined name is an error. -/
theorem entity_expansion :
    (∀ e : EntityEnv, expandEntity e "#65" = .ok "A") ∧
    (∀ e : EntityEnv, expandEntity e "#x41" = .ok "A") ∧
    (∀ (e : EntityEnv) (d : Char) (ds : List Char), d.isDigit = true →
      (∀ c ∈ d :: ds, c.isDigit = true) →
      expandEntity e (String.mk ('#' :: d :: ds)) =
        (if 255 < (parseDigitsGo Char.isDigit decVal 10 (d :: ds) 0).1 then
          .error ("Invalid numeric character reference '&" ++
            String.mk ('#' :: d :: ds) ++ ";'")
        else
          .ok (String.singleton
            (Char.ofNat (parseDigitsGo Char.isDigit decVal 10 (d :: ds) 0).1)))) ∧
    (∀ e : EntityEnv, expandEntity e "#1a" =
        .error "Invalid numeric character reference '&#1a;'") ∧
    (∀ (ne : Bool) (env : String → Option String),
      expandEntity ⟨ne, env, defaultVars⟩ "amp" = .ok "&" ∧
      expandEntity ⟨ne, env, defaultVars⟩ "quot" = .ok "\x22") ∧
    (∀ (env : String → Option String) (vars : List (String × String)) (name v : String),
      env name = some v →
      expandEntity ⟨false, env, vars⟩ (String.mk (("env." : String).data ++ name.data))
        = .ok v) ∧
    (∀ (env : String → Option String) (vars : List (String × String)) (name : String),
      env name = none →
      expandEntity ⟨false, env, vars⟩ (String.mk (("env." : String).data ++ name.data))
        = .error ("Undefined XML environment entity reference '&" ++
            String.mk (("env." : String).data ++ name.data) ++ ";'")) ∧
    (∀ (env : String → Option String) (vars : List (String × String)) (name : String),
      expandEntity ⟨true, env, vars⟩ (String.mk (("env." : String).data ++ name.data))
        = .error "XML environment entity reference in file included with noenv=\x22yes\x22") ∧
    (∀ (ne : Bool) (env : String → Option String) (vars : List (String × String))
        (name v : String), charAt name.data 0 ≠ '#' →
      name.data.take 4 ≠ ['e', 'n', 'v', '.'] → name.data ≠ [] →
      expandEntity ⟨ne, env, defineVar vars name v⟩ name = .ok v) ∧
    (∀ (ne : Bool) (env : String → Option String) (vars : List (String × String))
        (name : String), charAt name.data 0 ≠ '#' →
      name.data.take 4 ≠ ['e', 'n', 'v', '.'] → name.data ≠ [] →
      lookupVar vars name = none →
      expandEntity ⟨ne, env, vars⟩ name =
        .error ("Undefined XML entity reference '&" ++ name ++ ";'")) := by
  have henv : ∀ (ne : Bool) (env : String → Option String)
      (vars : List (String × String)) (name : String),
      expandEntity ⟨ne, env, vars⟩ (String.mk (("env." : String).data ++ name.data))
        = if ne then
            .error "XML environment entity reference in file included with noenv=\x22yes\x22"
          else
            match env name with
            | none => .error ("Undefined XML environment entity reference '&" ++
                String.mk (("env." : String).data ++ name.data) ++ ";'")
            | some v => .ok v := by
    intro ne env vars name
    rfl
  refine ⟨fun e => rfl, fun e => rfl, ?_, fun e => rfl, fun ne env => ⟨rfl, rfl⟩,
    ?_, ?_, ?_, ?_, ?_⟩
  · -- general decimal reference
    intro e d ds hd hall
    have hx : (d == 'x') = false := by
      rcases Bool.eq_false_or_eq_true (d == 'x') with h | h
      · have hdx : d = 'x' := by simpa using h
        rw [hdx] at hd
        exact absurd hd (by decide)
      · exact h
    have hrest : (parseDigitsGo Char.isDigit decVal 10 (d :: ds) 0).2 = [] :=
      parseDigitsGo_all _ _ _ _ _ hall
    have hc2 : ((charAt (String.mk ('#' :: d :: ds)).data 0 == '#') &&
        ((String.mk ('#' :: d :: ds)).data.length == 1 ||
          ((String.mk ('#' :: d :: ds)).data.length == 2 &&
            charAt (String.mk ('#' :: d :: ds)).data 1 == 'x'))) = false := by
      have h1 : ((String.mk ('#' :: d :: ds)).data.length == 1) = false := rfl
      have h2 : charAt (String.mk ('#' :: d :: ds)).data 1 = d := rfl
      rw [h1, h2, hx]
      simp
    unfold expandEntity
    rw [if_neg (by simp), if_neg (by rw [hc2]; simp)]
    have hc3 : (charAt (String.mk ('#' :: d :: ds)).data 0 == '#') = true := rfl
    rw [if_pos hc3]
    have hc4 : (charAt (String.mk ('#' :: d :: ds)).data 1 == 'x') = false := hx
    rw [hc4]
    simp only [Bool.false_eq_true, if_false]
    have hdrop : (String.mk ('#' :: d :: ds)).data.drop 1 = d :: ds := rfl
    rw [hdrop, hrest]
    simp only [List.isEmpty_nil, Bool.not_false, Bool.true_or, Bool.false_or]
    split
    · rename_i hgt
      rw [if_pos (of_decide_eq_true hgt)]
    · rename_i hgt
      rw [if_neg (fun hlt => hgt (decide_eq_true hlt))]
  · -- &env.NAME; with the variable set
    intro env vars name v hv
    rw [henv false env vars name]
    simp [hv]
  · -- &env.NAME; with the variable unset
    intro env vars name hv
    rw [henv false env vars name]
    simp [hv]
  · -- &env.NAME; under noenv
    intro env vars name
    rw [henv true env vars name]
    rfl
  · -- defined variable
    intro ne env vars name v h1 h2 h3
    unfold expandEntity
    rw [if_neg (by simpa using h3), if_neg ?hc2, if_neg ?hc3, if_neg ?hc4]
    case hc2 =>
      intro hcontra
      have := ((Bool.and_eq_true _ _).mp hcontra).1
      exact h1 (by simpa using this)
    case hc3 =>
      intro hcontra
      exact h1 (by simpa using hcontra)
    case hc4 =>
      intro hcontra
      exact h2 (by simpa using hcontra)
    simp [lookupVar, defineVar, List.lookup]
  · -- undefined variable
    intro ne env vars name h1 h2 h3 hlk
    unfold expandEntity
    rw [if_neg (by simpa using h3), if_neg ?hd2, if_neg ?hd3, if_neg ?hd4]
    case hd2 =>
      intro hcontra
      have := ((Bool.and_eq_true _ _).mp hcontra).1
      exact h1 (by simpa using this)
    case hd3 =>
      intro hcontra
      exact h1 (by simpa using hcontra)
    case hd4 =>
      intro hcontra
      exact h2 (by simpa using hcontra)
    have hlk' : lookupVar ({ noenv := ne, env := env, vars := vars } : EntityEnv).vars name
        = none := hlk
    rw [hlk']

/-- C5 witness: the concrete expansions at `&#65;`-style inputs, the
environment `envC5` and the `<define>`d variable `foo`. -/
theorem entity_expansion_witness :
    expandEntity envC5 "#65" = .ok "A" ∧
    expandEntity envC5 "#x41" = .ok "A" ∧
    (expandEntity envC5 (String.mk ('#' :: '6' :: ['5'])) =
      (if 255 < (parseDigitsGo Char.isDigit decVal 10 ('6' :: ['5']) 0).1 then
        .error ("Invalid numeric character reference '&" ++
          String.mk ('#' :: '6' :: ['5']) ++ ";'")
      else
        .ok (String.singleton
          (Char.ofNat (parseDigitsGo Char.isDigit decVal 10 ('6' :: ['5']) 0).1)))) ∧
    (expandEntity ⟨false, envC5.env, envC5.vars⟩
        (String.mk (("env." : String).data ++ ("XYZ" : String).data)) = .ok "xyzvalue") ∧
    (expandEntity ⟨false, envC5.env, envC5.vars⟩
        (String.mk (("env." : String).data ++ ("OTHER" : String).data)) =
          .error ("Undefined XML environment entity reference '&" ++
            String.mk (("env." : String).data ++ ("OTHER" : String).data) ++ ";'")) ∧
    (expandEntity ⟨true, envC5.env, envC5.vars⟩
        (String.mk (("env." : String).data ++ ("XYZ" : String).data)) =
          .error "XML environment entity reference in file included with noenv=\x22yes\x22") ∧
    expandEntity ⟨false, envC5.env, defineVar defaultVars "foo" "bar"⟩ "foo" = .ok "bar" ∧
    expandEntity ⟨false, envC5.env, defaultVars⟩ "nosuch" =
      .error ("Undefined XML entity reference '&" ++ "nosuch" ++ ";'") :=
  ⟨entity_expansion.1 envC5,
   entity_expansion.2.1 envC5,
   entity_expansion.2.2.1 envC5 '6' ['5'] (by decide) (by decide),
   entity_expansion.2.2.2.2.2.1 envC5.env envC5.vars "XYZ" "xyzvalue" (by decide),
   entity_expansion.2.2.2.2.2.2.1 envC5.env envC5.vars "OTHER" (by decide),
   entity_expansion.2.2.2.2.2.2.2.1 envC5.env envC5.vars "XYZ",
   entity_expansion.2.2.2.2.2.2.2.2.1 false envC5.env defaultVars "foo" "bar"
     (by decide) (by decide) (by decide),
   entity_expansion.2.2.2.2.2.2.2.2.2 false envC5.env defaultVars "nosuch"
     (by decide) (by decide) (by decide) (by decide)⟩

/-- C9: with `<shun enabledcommands="ADMIN OPER PING PONG QUIT"
cleanedcommands="AWAY PART QUIT">` (and the default `notifyuser`), a shunned
user's `WHOIS` is denied before execution with a notice containing "WHOIS
command not processed", while `QUIT` with a trailing message proceeds but
its parameters are cleared. -/
theorem shun_gating (atags aconn : Bool) (params tags : List String) (msg : String) :
    (shunOnPreCommand
        (readShunConfig "AWAY PART QUIT" "ADMIN OPER PING PONG QUIT" atags aconn true)
        true false "WHOIS" params tags).res = ModResult.deny ∧
    (shunOnPreCommand
        (readShunConfig "AWAY PART QUIT" "ADMIN OPER PING PONG QUIT" atags aconn true)
        true false "WHOIS" params tags).notices =
      ["*** WHOIS command not processed as you have been blocked from issuing commands."] ∧
    strHasSub
      "*** WHOIS command not processed as you have been blocked from issuing commands."
      "WHOIS command not processed" ∧
    (shunOnPreCommand
        (readShunConfig "AWAY PART QUIT" "ADMIN OPER PING PONG QUIT" atags aconn true)
        true false "QUIT" [msg] tags).res = ModResult.passthru ∧
    (shunOnPreCommand
        (readShunConfig "AWAY PART QUIT" "ADMIN OPER PING PONG QUIT" atags aconn true)
        true false "QUIT" [msg] tags).params = [] := by
  have hen : ciMem (spaceSep "ADMIN OPER PING PONG QUIT") "WHOIS" = false := by decide
  have henq : ciMem (spaceSep "ADMIN OPER PING PONG QUIT") "QUIT" = true := by decide
  have hcl : ciMem (spaceSep "AWAY PART QUIT") "QUIT" = true := by decide
  have e1 : (("QUIT" : String) == "AWAY") = false := by decide
  have e2 : (("QUIT" : String) == "PART") = false := by decide
  have e3 : (("QUIT" : String) == "QUIT") = true := by decide
  refine ⟨?_, ?_, ?_, ?_, ?_⟩
  · simp [shunOnPreCommand, readShunConfig, hen]
  · simp [shunOnPreCommand, readShunConfig, hen]
  · exact ⟨("*** " : String).data,
      (" as you have been blocked from issuing commands." : String).data, by decide⟩
  · simp [shunOnPreCommand, readShunConfig, henq]
  · simp [shunOnPreCommand, readShunConfig, henq, hcl, e1, e2, e3]

theorem mem_addTimer {y t : TimerEntry} : ∀ {l : List TimerEntry},
    y ∈ addTimer t l ↔ y = t ∨ y ∈ l := by
  intro l
  induction l with
  | nil => simp [addTimer]
  | cons x xs ih =>
    simp only [addTimer]
    split
    · simp only [List.mem_cons, ih]
      tauto
    · simp [List.mem_cons]

theorem addTimer_sorted {t : TimerEntry} : ∀ {l : List TimerEntry},
    TimersSorted l → TimersSorted (addTimer t l) := by
  intro l
  induction l with
  | nil => intro _; exact List.pairwise_singleton _ _
  | cons x xs ih =>
    intro h
    rcases List.pairwise_cons.mp h with ⟨hx, hxs⟩
    simp only [addTimer]
    split
    · rename_i hle
      refine List.pairwise_cons.mpr ⟨?_, ih hxs⟩
      intro y hy
      rcases mem_addTimer.mp hy with rfl | hy'
      · exact hle
      · exact hx y hy'
    · rename_i hgt
      have htx : t.trigger ≤ x.trigger := Nat.le_of_lt (Nat.lt_of_not_le hgt)
      refine List.pairwise_cons.mpr ⟨?_, h⟩
      intro y hy
      rcases List.mem_cons.mp hy with rfl | hy'
      · exact htx
      · exact Nat.le_trans htx (hx y hy')

theorem takeWhile_addTimer (now : Nat) {t : TimerEntry} (hnd : ¬(t.trigger ≤ now)) :
    ∀ (l : List TimerEntry),
      (addTimer t l).takeWhile (fun e => decide (e.trigger ≤ now))
        = l.takeWhile (fun e => decide (e.trigger ≤ now)) := by
  intro l
  induction l with
  | nil => simp [addTimer, List.takeWhile_cons, hnd]
  | cons x xs ih =>
    simp only [addTimer]
    split
    · rename_i hle
      simp only [List.takeWhile_cons]
      split
      · rw [ih]
      · rfl
    · rename_i hgt
      have hx : ¬(x.trigger ≤ now) := fun hc =>
        hnd (Nat.le_trans (Nat.le_of_lt (Nat.lt_of_not_le hgt)) hc)
      simp [List.takeWhile_cons, hnd, hx]

theorem countP_addTimer (p : TimerEntry → Bool) (t : TimerEntry) :
    ∀ l : List TimerEntry,
      (addTimer t l).countP p = l.countP p + (if p t then 1 else 0) := by
  intro l
  induction l with
  | nil =>
    simp only [addTimer, List.countP_cons, List.countP_nil]
  | cons x xs ih =>
    simp only [addTimer]
    split
    · simp only [List.countP_cons, ih]
      try omega
    · simp only [List.countP_cons]
      try omega

theorem mem_takeWhile_of_sorted (now : Nat) :
    ∀ (s : List TimerEntry) (e : TimerEntry), TimersSorted s → e ∈ s →
      e.trigger ≤ now → e ∈ s.takeWhile (fun x => decide (x.trigger ≤ now)) := by
  intro s
  induction s with
  | nil => intro e _ h; cases h
  | cons t ts ih =>
    intro e hs hmem hle
    rcases List.pairwise_cons.mp hs with ⟨hthead, hts⟩
    rcases List.mem_cons.mp hmem with rfl | hmem'
    · simp [List.takeWhile_cons, hle]
    · have hT : t.trigger ≤ now := Nat.le_trans (hthead e hmem') hle
      simp only [List.takeWhile_cons, decide_eq_true hT, if_true]
      exact List.mem_cons.mpr (Or.inr (ih e hts hmem' hle))

theorem takeWhile_append_all (p : TimerEntry → Bool) :
    ∀ (l1 l2 : List TimerEntry), (∀ x ∈ l1, p x = true) →
      (l1 ++ l2).takeWhile p = l1 ++ l2.takeWhile p := by
  intro l1 l2
  induction l1 with
  | nil => intro _; simp
  | cons a l ih =>
    intro hall
    rw [List.cons_append, List.takeWhile_cons, if_pos (hall a (List.mem_cons_self _ _)),
      ih (fun x hx => hall x (List.mem_cons_of_mem _ hx)), List.cons_append]

/-- The tick loop fires exactly the due prefix of the sorted timer map, in
map order. -/
theorem tickTimers_fired (tick : Nat → Bool) (now : Nat) :
    ∀ (fuel : Nat) (s : List TimerEntry), TimersSorted s →
      (∀ e ∈ s, 1 ≤ e.interval) → dueCount now s < fuel →
      (tickTimers tick now fuel s).1
        = (s.takeWhile (fun e => decide (e.trigger ≤ now))).map (fun e => e.id) := by
  intro fuel
  induction fuel with
  | zero => intro s _ _ h; exact absurd h (Nat.not_lt_zero _)
  | succ fuel ih =>
    intro s hs hint hdc
    cases s with
    | nil => simp [tickTimers]
    | cons t ts =>
      rcases List.pairwise_cons.mp hs with ⟨hthead, hts⟩
      have hint' : ∀ e ∈ ts, 1 ≤ e.interval :=
        fun e he => hint e (List.mem_cons_of_mem _ he)
      by_cases hdue : now < t.trigger
      · have hp : (decide (t.trigger ≤ now)) = false :=
          decide_eq_false (Nat.not_le_of_lt hdue)
        simp [tickTimers, hdue, List.takeWhile_cons, hp]
      · have hle : t.trigger ≤ now := Nat.le_of_not_lt hdue
        have hp : (decide (t.trigger ≤ now)) = true := decide_eq_true hle
        have hdcts : ts.countP (fun e => decide (e.trigger ≤ now)) < fuel := by
          unfold dueCount at hdc
          rw [List.countP_cons, hp] at hdc
          simp only [if_pos] at hdc
          omega
        have h1t : 1 ≤ t.interval := hint t (List.mem_cons_self _ _)
        have hndt' : ¬(({ t with trigger := now + t.interval } : TimerEntry).trigger ≤ now) := by
          simp only []
          omega
        by_cases hre : (tick t.id && t.repeating) = true
        · have hrs : TimersSorted (addTimer { t with trigger := now + t.interval } ts) :=
            addTimer_sorted hts
          have hri : ∀ e ∈ addTimer { t with trigger := now + t.interval } ts,
              1 ≤ e.interval := by
            intro e he
            rcases mem_addTimer.mp he with rfl | he'
            · exact h1t
            · exact hint' e he'
          have hrd : dueCount now (addTimer { t with trigger := now + t.interval } ts)
              < fuel := by
            unfold dueCount
            rw [countP_addTimer]
            rw [if_neg (by simpa using hndt')]
            simpa using hdcts
          have hrec := ih _ hrs hri hrd
          rw [takeWhile_addTimer now hndt'] at hrec
          simp [tickTimers, hdue, hre, hrec, List.takeWhile_cons, hp]
        · have hrec := ih ts hts hint' (by simpa [dueCount] using hdcts)
          simp [tickTimers, hdue, hre, hrec, List.takeWhile_cons, hp]

/-- A timer that is not due survives the tick with its entry unchanged. -/
theorem tickTimers_keeps (tick : Nat → Bool) (now : Nat) :
    ∀ (fuel : Nat) (s : List TimerEntry) (e : TimerEntry),
      e ∈ s → now < e.trigger → e ∈ (tickTimers tick now fuel s).2 := by
  intro fuel
  induction fuel with
  | zero => intro s e he _; simpa [tickTimers] using he
  | succ fuel ih =>
    intro s e he hgt
    cases s with
    | nil => cases he
    | cons t ts =>
      by_cases hdue : now < t.trigger
      · simpa [tickTimers, hdue] using he
      · have hne : e ≠ t := by
          intro hct
          rw [hct] at hgt
          exact hdue hgt
        have he' : e ∈ ts := by
          rcases List.mem_cons.mp he with rfl | h
          · exact absurd rfl hne
          · exact h
        by_cases hre : (tick t.id && t.repeating) = true
        · have hmem : e ∈ addTimer { t with trigger := now + t.interval } ts :=
            mem_addTimer.mpr (Or.inr he')
          simpa [tickTimers, hdue, hre] using ih _ e hmem hgt
        · simpa [tickTimers, hdue, hre] using ih ts e he' hgt

/-- A due repeating timer whose callback returns continue is re-inserted at
`now + interval`. -/
theorem tickTimers_reinsert (tick : Nat → Bool) (now : Nat) :
    ∀ (fuel : Nat) (s : List TimerEntry) (e : TimerEntry), TimersSorted s →
      (∀ x ∈ s, 1 ≤ x.interval) → dueCount now s < fuel → e ∈ s →
      e.trigger ≤ now → e.repeating = true → tick e.id = true →
      { e with trigger := now + e.interval } ∈ (tickTimers tick now fuel s).2 := by
  intro fuel
  induction fuel with
  | zero => intro s e _ _ h; exact absurd h (Nat.not_lt_zero _)
  | succ fuel ih =>
    intro s e hs hint hdc hmem hle hrep htick
    cases s with
    | nil => cases hmem
    | cons t ts =>
      rcases List.pairwise_cons.mp hs with ⟨hthead, hts⟩
      have hint' : ∀ x ∈ ts, 1 ≤ x.interval :=
        fun x hx => hint x (List.mem_cons_of_mem _ hx)
      by_cases hdue : now < t.trigger
      · exfalso
        rcases List.mem_cons.mp hmem with rfl | hmem'
        · exact Nat.not_le_of_lt hdue hle
        · exact Nat.not_le_of_lt hdue (Nat.le_trans (hthead e hmem') hle)
      · have hlet : t.trigger ≤ now := Nat.le_of_not_lt hdue
        have hpt : (decide (t.trigger ≤ now)) = true := decide_eq_true hlet
        have hdcts : ts.countP (fun x => decide (x.trigger ≤ now)) < fuel := by
          unfold dueCount at hdc
          rw [List.countP_cons, hpt] at hdc
          simp only [if_pos] at hdc
          omega
        rcases List.mem_cons.mp hmem with rfl | hmem'
        · -- e is the popped head: it is re-inserted and then survives
          have hre : (tick e.id && e.repeating) = true := by
            rw [htick, hrep]
            rfl
          have h1e : 1 ≤ e.interval := hint e (List.mem_cons_self _ _)
          have hmem2 : ({ e with trigger := now + e.interval } : TimerEntry)
              ∈ addTimer { e with trigger := now + e.interval } ts :=
            mem_addTimer.mpr (Or.inl rfl)
          have hgt2 : now < ({ e with trigger := now + e.interval } : TimerEntry).trigger := by
            simp only []
            omega
          simpa [tickTimers, hdue, hre] using
            tickTimers_keeps tick now fuel _ _ hmem2 hgt2
        · -- e is further down: recurse on the rest
          by_cases hre : (tick t.id && t.repeating) = true
          · have h1t : 1 ≤ t.interval := hint t (List.mem_cons_self _ _)
            have hndt' : ¬(({ t with trigger := now + t.interval } : TimerEntry).trigger
                ≤ now) := by
              simp only []
              omega
            have hrs : TimersSorted (addTimer { t with trigger := now + t.interval } ts) :=
              addTimer_sorted hts
            have hri : ∀ x ∈ addTimer { t with trigger := now + t.interval } ts,
                1 ≤ x.interval := by
              intro x hx
              rcases mem_addTimer.mp hx with rfl | hx'
              · exact h1t
              · exact hint' x hx'
            have hrd : dueCount now (addTimer { t with trigger := now + t.interval } ts)
                < fuel := by
              unfold dueCount
              rw [countP_addTimer]
              rw [if_neg (by simpa using hndt')]
              simpa using hdcts
            have hmem2 : e ∈ addTimer { t with trigger := now + t.interval } ts :=
              mem_addTimer.mpr (Or.inr hmem')
            simpa [tickTimers, hdue, hre] using
              ih _ e hrs hri hrd hmem2 hle hrep htick
          · simpa [tickTimers, hdue, hre] using
              ih ts e hts hint' (by simpa [dueCount] using hdcts) hmem' hle hrep htick

/-- C7: on a tick at time `now`, (i) two timers A and B inserted in that
order with the same trigger T ≤ now fire with A before B (the fired list
starts with the due prefix in map order); (ii) every timer whose trigger is
≤ now fires on that tick; (iii) a repeating timer whose callback returns
continue is re-inserted with trigger `now + interval`.  (All timer intervals
are at least one second, as `Timer` triggers are full seconds.) -/
theorem timers_spec :
    (∀ (tick : Nat → Bool) (now fuel : Nat) (l1 l2 l3 : List TimerEntry)
        (A B : TimerEntry),
      TimersSorted (l1 ++ A :: l2 ++ B :: l3) →
      (∀ e ∈ l1 ++ A :: l2 ++ B :: l3, 1 ≤ e.interval) →
      dueCount now (l1 ++ A :: l2 ++ B :: l3) < fuel →
      A.trigger = B.trigger → B.trigger ≤ now →
      ∃ rest, (tickTimers tick now fuel (l1 ++ A :: l2 ++ B :: l3)).1
          = (l1 ++ A :: l2 ++ [B]).map (fun e => e.id) ++ rest) ∧
    (∀ (tick : Nat → Bool) (now fuel : Nat) (s : List TimerEntry) (e : TimerEntry),
      TimersSorted s → (∀ x ∈ s, 1 ≤ x.interval) → dueCount now s < fuel →
      e ∈ s → e.trigger ≤ now → e.id ∈ (tickTimers tick now fuel s).1) ∧
    (∀ (tick : Nat → Bool) (now fuel : Nat) (s : List TimerEntry) (e : TimerEntry),
      TimersSorted s → (∀ x ∈ s, 1 ≤ x.interval) → dueCount now s < fuel →
      e ∈ s → e.trigger ≤ now → e.repeating = true → tick e.id = true →
      { e with trigger := now + e.interval } ∈ (tickTimers tick now fuel s).2) := by
  refine ⟨?_, ?_, tickTimers_reinsert⟩
  · intro tick now fuel l1 l2 l3 A B hs hint hdc hAB hBle
    have hfired := tickTimers_fired tick now fuel _ hs hint hdc
    have hassoc : l1 ++ A :: l2 ++ B :: l3 = (l1 ++ A :: l2) ++ (B :: l3) := by
      simp
    have hcross : ∀ x ∈ l1 ++ A :: l2, x.trigger ≤ B.trigger := by
      have hs' : TimersSorted ((l1 ++ A :: l2) ++ (B :: l3)) := by
        rw [← hassoc]
        exact hs
      have := (List.pairwise_append.mp hs').2.2
      intro x hx
      exact this x hx B (List.mem_cons_self _ _)
    have hall : ∀ x ∈ (l1 ++ A :: l2) ++ [B],
        (fun e => decide (e.trigger ≤ now)) x = true := by
      intro x hx
      rcases List.mem_append.mp hx with hx' | hx'
      · exact decide_eq_true (Nat.le_trans (hcross x hx') hBle)
      · rcases List.mem_singleton.mp hx' with rfl
        exact decide_eq_true hBle
    have hassoc2 : l1 ++ A :: l2 ++ B :: l3 = ((l1 ++ A :: l2) ++ [B]) ++ l3 := by
      simp
    refine ⟨(l3.takeWhile (fun e => decide (e.trigger ≤ now))).map (fun e => e.id), ?_⟩
    rw [hfired, hassoc2, takeWhile_append_all _ _ _ hall, List.map_append]
  · intro tick now fuel s e hs hint hdc hmem hle
    rw [tickTimers_fired tick now fuel s hs hint hdc]
    exact List.mem_map_of_mem _ (mem_takeWhile_of_sorted now s e hs hmem hle)

/-- C7 witness: timers A(id 1) and B(id 2) due at t = 5 in insertion order,
a repeating timer C(id 3, interval 7); at the tick `now = 5` the fired list
starts with A, B; every due timer fires; C is re-inserted at trigger 12. -/
theorem timers_spec_witness :
    (∃ rest, (tickTimers (fun _ => true) 5 4
        (([] : List TimerEntry) ++ timerA :: ([] : List TimerEntry) ++ timerB :: [timerC])).1
          = (([] : List TimerEntry) ++ timerA :: ([] : List TimerEntry) ++ [timerB]).map
              (fun e : TimerEntry => e.id) ++ rest) ∧
    timerC.id ∈ (tickTimers (fun _ => true) 5 4 [timerA, timerB, timerC]).1 ∧
    { timerC with trigger := 5 + timerC.interval }
      ∈ (tickTimers (fun _ => true) 5 4 [timerA, timerB, timerC]).2 :=
  ⟨timers_spec.1 (fun _ => true) 5 4 [] [] [timerC] timerA timerB
      (by simp [TimersSorted, timerA, timerB, timerC])
      (by decide) (by decide) (by decide) (by decide),
   timers_spec.2.1 (fun _ => true) 5 4 [timerA, timerB, timerC] timerC
      (by simp [TimersSorted, timerA, timerB, timerC])
      (by decide) (by decide) (by decide) (by decide),
   timers_spec.2.2 (fun _ => true) 5 4 [timerA, timerB, timerC] timerC
      (by simp [TimersSorted, timerA, timerB, timerC])
      (by decide) (by decide) (by decide) (by decide) (by decide) (by decide)⟩

end Insp
